import Mathlib

/-!
Verification of the identity-resolution and table-routing core of the
stellarmindprod campus-portal backend (`app.py`, `config.py`).

The Python code is shallowly embedded: pure helpers become Lean functions;
the Supabase REST store is an oracle `Db` mapping a (table, filter-field,
filter-value) query to either an error (any `requests` exception /
`raise_for_status` / JSON failure) or a list of rows; Werkzeug's
`check_password_hash` becomes an abstract boolean oracle `HashChecker`.
Python dicts of JSON data become association lists over an explicit value
type with a `null` constructor (Python `None` / JSON `null`).
-/

namespace Stellar

/-- A JSON/Python value stored in a record field.  Only the distinctions the
resolver observes are modelled: a string-like payload, or `null`. -/
inductive Val where
  | vstr (s : String)
  | vnull
deriving DecidableEq, Repr

/-- `RawRecord`: the untyped field-to-value mapping returned by the gateway
(a Python dict built from a JSON object; keys are unique in practice). -/
abbrev RawRecord := List (String × Val)

/-- `d.get(k, default)`: value stored under `k`, else the default. -/
def rget (r : RawRecord) (k : String) (d : Val) : Val :=
  match r.find? (fun p => p.1 == k) with
  | some p => p.2
  | none => d

/-- `d[k]` read access: `some` value, or `none` standing for a `KeyError`. -/
def ridx (r : RawRecord) (k : String) : Option Val :=
  (r.find? (fun p => p.1 == k)).map (fun p => p.2)

/-- `d.pop(k, None)`: remove the key `k` (all bindings for it). -/
def rpop (r : RawRecord) (k : String) : RawRecord :=
  r.filter (fun p => !(p.1 == k))

/-- `d[k] = v`: bind `k` to `v` (position in the list is irrelevant to
every property proved below, so the binding is appended after removal). -/
def rset (r : RawRecord) (k : String) (v : Val) : RawRecord :=
  rpop r k ++ [(k, v)]

/-- Whether the dict has the key `k` (`k in d`). -/
def hasKey (r : RawRecord) (k : String) : Bool :=
  r.any (fun p => p.1 == k)

/-! ## Configuration (`config.py`) -/

def SUPABASE_URL : String := "https://xhemdlzqermutpdqetkz.supabase.co"

def STUDENT_TABLES : List String := ["b1", "b2", "b3", "b4"]

def TEACHER_TABLE : String := "teachers"

def ADMIN_TABLE : String := "admins"

def COURSE_TABLE : String := "courses"

def GRADES_TABLE : String := "grades"

def MARKS_TABLES : List String := ["marks1", "marks2", "marks3", "marks4"]

def EVENTS_TABLE : String := "events"

def HOLIDAYS_TABLE : String := "holidays"

/-- Modelled from the spec: `app.py` imports `ATTENDANCE_TABLES` from the
config module, but the checked-in `config.py` only defines a singular
`ATTENDANCE_TABLE`; the per-cohort attendance shard names are taken from the
names `determine_attendance_table` produces (spec §4.2). -/
def ATTENDANCE_TABLES : List String :=
  ["attendance1", "attendance2", "attendance3", "attendance4"]

/-- Modelled from the spec: `app.py` imports `TIMETABLE_TABLE`, absent from
the checked-in `config.py`; the concrete name is immaterial to every claim
(it only pads the allow-list). -/
def TIMETABLE_TABLE : String := "timetable"

/-! ## Shard Query Gateway: `get_supabase_rest_url` -/

/-- The allow-list assembled inside `get_supabase_rest_url`. -/
def allowedTables : List String :=
  STUDENT_TABLES ++ MARKS_TABLES ++ ATTENDANCE_TABLES ++
    [TEACHER_TABLE, ADMIN_TABLE, GRADES_TABLE, EVENTS_TABLE, HOLIDAYS_TABLE,
     COURSE_TABLE, TIMETABLE_TABLE]

/-- `get_supabase_rest_url(table_name)`: validates the table name against the
allow-list and raises `ValueError` (here: `Except.error`, the spec's
`ForbiddenTable`) before the URL is even constructed — hence before any
network/storage access. -/
def get_supabase_rest_url (table_name : String) : Except String String :=
  if table_name ∈ allowedTables then
    Except.ok (SUPABASE_URL ++ "/rest/v1/" ++ table_name)
  else
    Except.error ("Access to table " ++ table_name ++ " is not permitted.")

/-! ## Batch Classifier: `determine_student_batch` -/

/-- ASCII lower-casing, as Python's `str.lower()` acts on the identifiers in
scope here (roll numbers, usernames, e-mail addresses). -/
def pyLower (s : String) : String := String.mk (s.data.map Char.toLower)

/-- Character-list prefix test backing `str.startswith`. -/
def chStarts : List Char → List Char → Bool
  | [], _ => true
  | _ :: _, [] => false
  | a :: as, b :: bs => a == b && chStarts as bs

/-- `s.startswith(pre)`. -/
def pyStartsWith (s pre : String) : Bool := chStarts pre.data s.data

/-- `determine_student_batch(roll_no)` from `app.py`: prefix `b25`/`b24`/
`b23`/`b22` maps to cohort `b1`/`b2`/`b3`/`b4`; otherwise a two-character
fallback on `b1`..`b4`; `None` when nothing matches or the input is
empty/shorter than two characters. -/
def determine_student_batch (roll_no : String) : Option String :=
  if roll_no = "" ∨ roll_no.data.length < 2 then none
  else if pyStartsWith (pyLower roll_no) "b25" then some "b1"
  else if pyStartsWith (pyLower roll_no) "b24" then some "b2"
  else if pyStartsWith (pyLower roll_no) "b23" then some "b3"
  else if pyStartsWith (pyLower roll_no) "b22" then some "b4"
  else if pyStartsWith (pyLower roll_no) "b1" then some "b1"
  else if pyStartsWith (pyLower roll_no) "b2" then some "b2"
  else if pyStartsWith (pyLower roll_no) "b3" then some "b3"
  else if pyStartsWith (pyLower roll_no) "b4" then some "b4"
  else none

/-! ## Table Router -/

/-- `get_marks_table_for_student(roll_no)` from `app.py`. -/
def get_marks_table_for_student (roll_no : String) : Option String :=
  if determine_student_batch roll_no = some "b1" then some "marks1"
  else if determine_student_batch roll_no = some "b2" then some "marks2"
  else if determine_student_batch roll_no = some "b3" then some "marks3"
  else if determine_student_batch roll_no = some "b4" then some "marks4"
  else none

/-- `determine_attendance_table(batch_table)` from `app.py`. -/
def determine_attendance_table (batch_table : String) : Option String :=
  if batch_table = "b1" then some "attendance1"
  else if batch_table = "b2" then some "attendance2"
  else if batch_table = "b3" then some "attendance3"
  else if batch_table = "b4" then some "attendance4"
  else none

/-- The `year_map` dict literal inside `get_current_semester`. -/
def year_map (student_batch : String) : Option Int :=
  if student_batch = "b1" then some 1
  else if student_batch = "b2" then some 2
  else if student_batch = "b3" then some 3
  else if student_batch = "b4" then some 4
  else none

/-- `get_current_semester(student_batch, current_month)` from `app.py`.
Python's `if not student_year:` is falsy for both `None` and `0`, hence the
explicit zero test in the `some` branch. -/
def get_current_semester (student_batch : String) (current_month : Int) :
    Option Int :=
  match year_map student_batch with
  | none => none
  | some y =>
    if y = 0 then none
    else if 7 ≤ current_month ∧ current_month ≤ 12 then some (y * 2 - 1)
    else some (y * 2)

/-! ## Identity Resolver: `fetch_and_verify_user`

Each lookup in `app.py` is a GET on one table filtered by one field equal to
one value; the store is abstracted as an oracle from such a query to either
rows or an error (any exception out of `requests.get` / `raise_for_status` /
`.json()`).  Werkzeug's `check_password_hash` is an abstract oracle on the
stored hash string and the candidate password. -/

/-- The record-store oracle: table, filter field, filter value ↦ rows or a
transport/storage error (the spec's `GatewayError`). -/
abbrev Db := String → String → String → Except Unit (List RawRecord)

/-- `check_password_hash(stored, candidate)` as an abstract oracle. -/
abbrev HashChecker := String → String → Bool

/-- `check_password_hash` applied to a stored field value.  On a non-string
(`null`) it raises in Python; the raise is caught by the strategy's blanket
`except` and that strategy/shard yields nothing — control-flow identical to
a failed check, hence `false` here. -/
def checkVal (ch : HashChecker) (v : Val) (password : String) : Bool :=
  match v with
  | .vstr s => ch s password
  | .vnull => false

/-- Normalization on the strategy-1 success path: pop `student_password` and
`parent_password`, set `role`, `batch`, and `roll_no` (defaulting to the
lower-cased login identifier). -/
def mkStudentIdentity (ud : RawRecord) (batch_table username_lower : String) :
    RawRecord :=
  let r1 := rpop (rpop ud "student_password") "parent_password"
  let r2 := rset r1 "role" (Val.vstr "student")
  let r3 := rset r2 "batch" (Val.vstr batch_table)
  rset r3 "roll_no" (rget r3 "roll_no" (Val.vstr username_lower))

/-- Normalization on the strategy-5 success path; here `roll_no` defaults to
`None` (`user_data.get('roll_no')` with no default). -/
def mkStudentIdentityByEmail (ud : RawRecord) (batch_table : String) :
    RawRecord :=
  let r1 := rpop (rpop ud "student_password") "parent_password"
  let r2 := rset r1 "role" (Val.vstr "student")
  let r3 := rset r2 "batch" (Val.vstr batch_table)
  rset r3 "roll_no" (rget r3 "roll_no" Val.vnull)

/-- Normalization on the strategy-2 (teacher) success path. -/
def mkTeacherIdentity (ud : RawRecord) (username_lower : String) : RawRecord :=
  let r1 := rset (rpop ud "teacher_password") "role" (Val.vstr "teacher")
  rset r1 "username" (rget r1 "username" (Val.vstr username_lower))

/-- Normalization on the strategy-3 (admin) success path. -/
def mkAdminIdentity (ud : RawRecord) : RawRecord :=
  rset (rpop ud "password") "role" (Val.vstr "admin")

/-- The fresh session dict built on the strategy-4 (parent) success path. -/
def mkParentIdentity (pe rn sn : Val) (batch_table : String) : RawRecord :=
  [("role", Val.vstr "parent"), ("parent_email", pe),
   ("student_roll_no", rn), ("student_name", sn),
   ("batch", Val.vstr batch_table)]

/-- Strategy 1: student lookup by `roll_no` in the cohort shard derived by
the Batch Classifier; skipped when no cohort is derivable.  Any exception
(gateway validation, transport, JSON) yields `none` — the resolver proceeds
to the next strategy. -/
def studentRollStrategy (db : Db) (ch : HashChecker)
    (username_lower password : String) : Option RawRecord :=
  match determine_student_batch username_lower with
  | none => none
  | some batch_table =>
    match get_supabase_rest_url batch_table with
    | .error _ => none
    | .ok _ =>
      match db batch_table "roll_no" username_lower with
      | .error _ => none
      | .ok [ud] =>
        if checkVal ch (rget ud "student_password" (Val.vstr "")) password then
          some (mkStudentIdentity ud batch_table username_lower)
        else none
      | .ok _ => none

/-- Strategy 2: teacher lookup by `username` in the single teacher table. -/
def teacherStrategy (db : Db) (ch : HashChecker)
    (username_lower password : String) : Option RawRecord :=
  match get_supabase_rest_url TEACHER_TABLE with
  | .error _ => none
  | .ok _ =>
    match db TEACHER_TABLE "username" username_lower with
    | .error _ => none
    | .ok [ud] =>
      if checkVal ch (rget ud "teacher_password" (Val.vstr "")) password then
        some (mkTeacherIdentity ud username_lower)
      else none
    | .ok _ => none

/-- Strategy 3: admin lookup by `username` in the single admin table. -/
def adminStrategy (db : Db) (ch : HashChecker)
    (username_lower password : String) : Option RawRecord :=
  match get_supabase_rest_url ADMIN_TABLE with
  | .error _ => none
  | .ok _ =>
    match db ADMIN_TABLE "username" username_lower with
    | .error _ => none
    | .ok [ud] =>
      if checkVal ch (rget ud "password" (Val.vstr "")) password then
        some (mkAdminIdentity ud)
      else none
    | .ok _ => none

/-- One iteration of the strategy-4 loop body on one cohort shard: lookup by
`parent_email`; on exactly one row, the password is verified first and the
session dict is then built by bracket access (`KeyError` — a missing key —
is caught by the loop's `except` and the shard yields nothing). -/
def parentShard (db : Db) (ch : HashChecker)
    (username_lower password batch_table : String) : Option RawRecord :=
  match get_supabase_rest_url batch_table with
  | .error _ => none
  | .ok _ =>
    match db batch_table "parent_email" username_lower with
    | .error _ => none
    | .ok [pd] =>
      if checkVal ch (rget pd "parent_password" (Val.vstr "")) password then
        match ridx pd "parent_email", ridx pd "roll_no",
              ridx pd "student_name" with
        | some pe, some rn, some sn =>
          some (mkParentIdentity pe rn sn batch_table)
        | _, _, _ => none
      else none
    | .ok _ => none

/-- Strategy 4: the `for batch_table in STUDENT_TABLES` loop; a shard that
yields nothing (no single match, failed password, or a swallowed exception)
lets the loop continue with the remaining shards. -/
def parentScan (db : Db) (ch : HashChecker) (username_lower password : String) :
    List String → Option RawRecord
  | [] => none
  | t :: ts =>
    match parentShard db ch username_lower password t with
    | some r => some r
    | none => parentScan db ch username_lower password ts

/-- One iteration of the strategy-5 loop body on one cohort shard: student
lookup by `student_email`. -/
def emailShard (db : Db) (ch : HashChecker)
    (username_lower password batch_table : String) : Option RawRecord :=
  match get_supabase_rest_url batch_table with
  | .error _ => none
  | .ok _ =>
    match db batch_table "student_email" username_lower with
    | .error _ => none
    | .ok [ud] =>
      if checkVal ch (rget ud "student_password" (Val.vstr "")) password then
        some (mkStudentIdentityByEmail ud batch_table)
      else none
    | .ok _ => none

/-- Strategy 5: the second `for batch_table in STUDENT_TABLES` loop. -/
def emailScan (db : Db) (ch : HashChecker) (username_lower password : String) :
    List String → Option RawRecord
  | [] => none
  | t :: ts =>
    match emailShard db ch username_lower password t with
    | some r => some r
    | none => emailScan db ch username_lower password ts

/-- `fetch_and_verify_user(username, password)` from `app.py`: lower-case the
identifier, then try the five strategies in order, returning the first
success, else `None`. -/
def fetch_and_verify_user (db : Db) (ch : HashChecker)
    (username password : String) : Option RawRecord :=
  let ul := pyLower username
  match studentRollStrategy db ch ul password with
  | some r => some r
  | none =>
  match teacherStrategy db ch ul password with
  | some r => some r
  | none =>
  match adminStrategy db ch ul password with
  | some r => some r
  | none =>
  match parentScan db ch ul password STUDENT_TABLES with
  | some r => some r
  | none => emailScan db ch ul password STUDENT_TABLES

/-! ## Schema of credential fields (for the stripping invariant) -/

/-- The four credential field names of the data model (`student_password`
and `parent_password` on cohort shards, `teacher_password` on the teacher
table, `password` on the admin table). -/
def credentialFields : List String :=
  ["student_password", "parent_password", "teacher_password", "password"]

/-- Which of the credential fields each table's rows may carry, per the
schema the queries and strips of `fetch_and_verify_user` are written
against. -/
def tableCredFields (t : String) : List String :=
  if t ∈ STUDENT_TABLES then ["student_password", "parent_password"]
  else if t = TEACHER_TABLE then ["teacher_password"]
  else if t = ADMIN_TABLE then ["password"]
  else []

/-- A row respects its table's schema: any credential field it carries is
one of that table's credential columns. -/
def rowCredsOk (t : String) (r : RawRecord) : Bool :=
  credentialFields.all
    (fun c => !(hasKey r c) || (tableCredFields t).contains c)

/-- A store respects the schema: every row of every successful query
carries only its own table's credential fields. -/
def DbCredsOk (db : Db) : Prop :=
  ∀ t f v rows, db t f v = Except.ok rows →
    ∀ r, r ∈ rows → rowCredsOk t r = true

/-! ## Concrete stores and checkers used to instantiate the theorems -/

/-- A store holding exactly one teacher row matching username `tina`. -/
def dbTeacherOnly : Db := fun t f v =>
  if t == "teachers" && f == "username" && v == "tina" then
    Except.ok [[("username", Val.vstr "tina"),
                ("teacher_name", Val.vstr "Tina"),
                ("teacher_password", Val.vstr "HH")]]
  else Except.ok []

/-- A checker accepting exactly the stored hash `HH` with password `pw`. -/
def chDemo : HashChecker := fun h p => h == "HH" && p == "pw"

/-- The single student row of `dbPrecedence`. -/
def rowStudentAsha : RawRecord :=
  [("roll_no", Val.vstr "b25x01"), ("student_name", Val.vstr "Asha"),
   ("student_password", Val.vstr "HH"), ("parent_password", Val.vstr "PP")]

/-- A store where the identifier `b25x01` matches one student row in shard
`b1` AND one teacher row (same username, and a hash that would also
verify) — exercising the precedence question. -/
def dbPrecedence : Db := fun t f v =>
  if t == "b1" && f == "roll_no" && v == "b25x01" then
    Except.ok [rowStudentAsha]
  else if t == "teachers" && f == "username" && v == "b25x01" then
    Except.ok [[("username", Val.vstr "b25x01"),
                ("teacher_name", Val.vstr "T"),
                ("teacher_password", Val.vstr "HH")]]
  else Except.ok []

/-- A checker accepting exactly the stored hash `PH` with password `pw`. -/
def chParent : HashChecker := fun h p => h == "PH" && p == "pw"

/-- The shard-`b1` parent row of `dbParentCex`: structurally valid (exactly
one match, all fields present) but its `parent_password` does not verify. -/
def pdWrong : RawRecord :=
  [("roll_no", Val.vstr "b25a11"), ("student_name", Val.vstr "Meera"),
   ("parent_email", Val.vstr "mom@x.com"), ("parent_password", Val.vstr "BAD")]

/-- The shard-`b2` parent row of `dbParentCex`: its password verifies. -/
def pdRight : RawRecord :=
  [("roll_no", Val.vstr "b24b22"), ("student_name", Val.vstr "Ravi"),
   ("parent_email", Val.vstr "mom@x.com"), ("parent_password", Val.vstr "PH")]

/-- A store where the parent identifier `mom@x.com` matches exactly one row
in the first scanned shard `b1` (failing verification) and exactly one row
in the later shard `b2` (passing it). -/
def dbParentCex : Db := fun t f v =>
  if t == "b1" && f == "parent_email" && v == "mom@x.com" then
    Except.ok [pdWrong]
  else if t == "b2" && f == "parent_email" && v == "mom@x.com" then
    Except.ok [pdRight]
  else Except.ok []

/-! ## Helper lemmas -/

/-- Every cohort the Batch Classifier produces is one of the four
configured student tables. -/
theorem determine_student_batch_mem {roll b : String}
    (h : determine_student_batch roll = some b) : b ∈ STUDENT_TABLES := by
  unfold determine_student_batch at h
  split at h
  · exact absurd h (by simp)
  · repeat' split at h
    all_goals simp_all [STUDENT_TABLES]

/-- `year_map` only produces the years 1..4. -/
theorem year_map_mem {b : String} {y : Int} (h : year_map b = some y) :
    1 ≤ y ∧ y ≤ 4 := by
  unfold year_map at h
  repeat' split at h
  all_goals simp_all
  all_goals omega

/-- The marks table is determined by the classified batch. -/
theorem get_marks_table_eq {roll c : String}
    (h : determine_student_batch roll = some c) :
    get_marks_table_for_student roll =
      (if c = "b1" then some "marks1"
       else if c = "b2" then some "marks2"
       else if c = "b3" then some "marks3"
       else if c = "b4" then some "marks4"
       else none) := by
  unfold get_marks_table_for_student
  rw [h]
  simp

/-! ## Claims about the Batch Classifier and Table Router -/

/-- C8: `determine_student_batch` is total (a Lean function by construction,
so it never throws) and returns `none` on every malformed input: the empty
string, any identifier shorter than two characters, and any identifier whose
lower-casing matches neither the four three-character prefixes nor the four
two-character fallback prefixes. -/
theorem classify_malformed_returns_none (s : String)
    (h : s = "" ∨ s.data.length < 2 ∨
      (pyStartsWith (pyLower s) "b25" = false ∧
       pyStartsWith (pyLower s) "b24" = false ∧
       pyStartsWith (pyLower s) "b23" = false ∧
       pyStartsWith (pyLower s) "b22" = false ∧
       pyStartsWith (pyLower s) "b1" = false ∧
       pyStartsWith (pyLower s) "b2" = false ∧
       pyStartsWith (pyLower s) "b3" = false ∧
       pyStartsWith (pyLower s) "b4" = false)) :
    determine_student_batch s = none := by
  unfold determine_student_batch
  rcases h with h | h | h
  · rw [if_pos (Or.inl h)]
  · rw [if_pos (Or.inr h)]
  · obtain ⟨h25, h24, h23, h22, h1, h2, h3, h4⟩ := h
    split
    · rfl
    · simp [h25, h24, h23, h22, h1, h2, h3, h4]

/-- Witness for C8 at the concrete malformed inputs `""`, `"x"`, `"xyz25"`. -/
theorem classify_malformed_returns_none_witness :
    determine_student_batch "" = none ∧
    determine_student_batch "x" = none ∧
    determine_student_batch "xyz25" = none :=
  ⟨classify_malformed_returns_none "" (Or.inl rfl),
   classify_malformed_returns_none "x" (Or.inr (Or.inl (by decide))),
   classify_malformed_returns_none "xyz25" (Or.inr (Or.inr (by decide)))⟩

/-- C7: for every recognized cohort (`year_map` gives its year of study) and
month of year, `get_current_semester` returns `2*year - 1` in months 7..12
and `2*year` in months 1..6; it returns `none` for an unrecognized cohort;
and the three concrete scenarios of the spec hold. -/
theorem current_semester_correct :
    (∀ b m, year_map b = none → get_current_semester b m = none) ∧
    (∀ b y m, year_map b = some y → 7 ≤ m → m ≤ 12 →
      get_current_semester b m = some (2 * y - 1)) ∧
    (∀ b y m, year_map b = some y → 1 ≤ m → m ≤ 6 →
      get_current_semester b m = some (2 * y)) ∧
    get_current_semester "b1" 7 = some 1 ∧
    get_current_semester "b1" 1 = some 2 ∧
    get_current_semester "b4" 12 = some 7 := by
  refine ⟨?_, ?_, ?_, by decide, by decide, by decide⟩
  · intro b m h
    simp [get_current_semester, h]
  · intro b y m hb h7 h12
    have hy := year_map_mem hb
    simp only [get_current_semester, hb]
    rw [if_neg (by omega), if_pos ⟨h7, h12⟩]
    congr 1
    ring
  · intro b y m hb h1 h6
    have hy := year_map_mem hb
    simp only [get_current_semester, hb]
    rw [if_neg (by omega), if_neg (by omega)]
    congr 1
    ring

/-- Witness for C7: the implications applied at an unrecognized cohort and
at the recognized cohorts `b2` (month 8) and `b3` (month 2). -/
theorem current_semester_correct_witness :
    get_current_semester "zzz" 5 = none ∧
    get_current_semester "b2" 8 = some (2 * 2 - 1) ∧
    get_current_semester "b3" 2 = some (2 * 3) :=
  ⟨current_semester_correct.1 "zzz" 5 rfl,
   current_semester_correct.2.1 "b2" 2 8 rfl (by decide) (by decide),
   current_semester_correct.2.2.1 "b3" 3 2 rfl (by decide) (by decide)⟩

/-- C9: over the fixed cohort set `STUDENT_TABLES = [b1, b2, b3, b4]`, the
marks router (for any roll the classifier maps to a cohort) and the
attendance router always return a table name, and the names are pairwise
distinct across distinct cohorts for each router. -/
theorem marks_attendance_total_and_distinct :
    (∀ roll b, determine_student_batch roll = some b →
      (get_marks_table_for_student roll).isSome = true) ∧
    (∀ b, b ∈ STUDENT_TABLES → (determine_attendance_table b).isSome = true) ∧
    (∀ r1 r2 c1 c2, determine_student_batch r1 = some c1 →
      determine_student_batch r2 = some c2 → c1 ≠ c2 →
      get_marks_table_for_student r1 ≠ get_marks_table_for_student r2) ∧
    (∀ c1 c2, c1 ∈ STUDENT_TABLES → c2 ∈ STUDENT_TABLES → c1 ≠ c2 →
      determine_attendance_table c1 ≠ determine_attendance_table c2) := by
  refine ⟨?_, ?_, ?_, ?_⟩
  · intro roll b h
    have hb := determine_student_batch_mem h
    rw [get_marks_table_eq h]
    simp [STUDENT_TABLES] at hb
    rcases hb with rfl | rfl | rfl | rfl <;> decide
  · intro b hb
    simp [STUDENT_TABLES] at hb
    rcases hb with rfl | rfl | rfl | rfl <;> decide
  · intro r1 r2 c1 c2 h1 h2 hne
    have hb1 := determine_student_batch_mem h1
    have hb2 := determine_student_batch_mem h2
    rw [get_marks_table_eq h1, get_marks_table_eq h2]
    simp [STUDENT_TABLES] at hb1 hb2
    rcases hb1 with rfl | rfl | rfl | rfl <;>
      rcases hb2 with rfl | rfl | rfl | rfl <;>
      first
        | exact absurd rfl hne
        | decide
  · intro c1 c2 h1 h2 hne
    simp [STUDENT_TABLES] at h1 h2
    rcases h1 with rfl | rfl | rfl | rfl <;>
      rcases h2 with rfl | rfl | rfl | rfl <;>
      first
        | exact absurd rfl hne
        | decide

/-- Witness for C9: the four implications applied at cohorts `b1` and `b4`
(rolls `b25001` and `b22999`). -/
theorem marks_attendance_total_and_distinct_witness :
    (get_marks_table_for_student "b25001").isSome = true ∧
    (determine_attendance_table "b1").isSome = true ∧
    get_marks_table_for_student "b25001" ≠
      get_marks_table_for_student "b22999" ∧
    determine_attendance_table "b1" ≠ determine_attendance_table "b4" :=
  ⟨marks_attendance_total_and_distinct.1 "b25001" "b1" (by decide),
   marks_attendance_total_and_distinct.2.1 "b1" (by decide),
   marks_attendance_total_and_distinct.2.2.1 "b25001" "b22999" "b1" "b4"
     (by decide) (by decide) (by decide),
   marks_attendance_total_and_distinct.2.2.2 "b1" "b4"
     (by decide) (by decide) (by decide)⟩

/-- C10: every cohort the classifier derives is one of the configured
student tables, which are all allow-listed, so `get_supabase_rest_url`
cannot raise for the strategy-1 lookup table nor for the signup insertion
table (both are exactly `determine_student_batch`'s output). -/
theorem classifier_result_allowlisted (roll b : String)
    (h : determine_student_batch roll = some b) :
    b ∈ STUDENT_TABLES ∧ b ∈ allowedTables ∧
      get_supabase_rest_url b =
        Except.ok (SUPABASE_URL ++ "/rest/v1/" ++ b) := by
  have hb := determine_student_batch_mem h
  have hal : b ∈ allowedTables := by
    unfold allowedTables
    exact List.mem_append_left _ (List.mem_append_left _
      (List.mem_append_left _ hb))
  exact ⟨hb, hal, by unfold get_supabase_rest_url; rw [if_pos hal]⟩

/-- Witness for C10 at the concrete roll `b25001` (cohort `b1`). -/
theorem classifier_result_allowlisted_witness :
    "b1" ∈ STUDENT_TABLES ∧ "b1" ∈ allowedTables ∧
      get_supabase_rest_url "b1" =
        Except.ok (SUPABASE_URL ++ "/rest/v1/" ++ "b1") :=
  classifier_result_allowlisted "b25001" "b1" (by decide)

/-- C5: the Gateway's table validation fails fast — for every table name
outside the allow-list, `get_supabase_rest_url` returns the `ForbiddenTable`
error (before the URL exists, hence before any network/storage access; the
function consults nothing but the static allow-list), and for every
allow-listed name it succeeds.  During resolution this error never fires
and in particular is never swallowed: every table the five strategies pass
to the gateway is allow-listed (third conjunct; the cohort case is
`classifier_result_allowlisted`-shaped). -/
theorem forbidden_table_fails_fast :
    (∀ t, t ∉ allowedTables →
      get_supabase_rest_url t =
        Except.error ("Access to table " ++ t ++ " is not permitted.")) ∧
    (∀ t, t ∈ allowedTables →
      get_supabase_rest_url t =
        Except.ok (SUPABASE_URL ++ "/rest/v1/" ++ t)) ∧
    (TEACHER_TABLE ∈ allowedTables ∧ ADMIN_TABLE ∈ allowedTables ∧
      ∀ t, t ∈ STUDENT_TABLES → t ∈ allowedTables) := by
  refine ⟨?_, ?_, by decide, by decide, ?_⟩
  · intro t ht
    unfold get_supabase_rest_url
    rw [if_neg ht]
  · intro t ht
    unfold get_supabase_rest_url
    rw [if_pos ht]
  · intro t ht
    unfold allowedTables
    exact List.mem_append_left _ (List.mem_append_left _
      (List.mem_append_left _ ht))

/-- Witness for C5 at the forbidden name `bogus` and the allow-listed
name `teachers`. -/
theorem forbidden_table_fails_fast_witness :
    get_supabase_rest_url "bogus" =
      Except.error ("Access to table " ++ "bogus" ++ " is not permitted.") ∧
    get_supabase_rest_url "teachers" =
      Except.ok (SUPABASE_URL ++ "/rest/v1/" ++ "teachers") ∧
    "b2" ∈ allowedTables :=
  ⟨forbidden_table_fails_fast.1 "bogus" (by decide),
   forbidden_table_fails_fast.2.1 "teachers" (by decide),
   forbidden_table_fails_fast.2.2.2.2 "b2" (by decide)⟩

/-! ## Record-key lemmas -/

/-- A key survives `pop` iff it was present and is not the popped key. -/
theorem hasKey_rpop_iff {r : RawRecord} {k c : String} :
    hasKey (rpop r k) c = true ↔ hasKey r c = true ∧ ¬c = k := by
  unfold hasKey rpop
  simp only [List.any_eq_true, List.mem_filter, beq_iff_eq, Bool.not_eq_true']
  constructor
  · rintro ⟨p, ⟨hp, hnk⟩, hc⟩
    exact ⟨⟨p, hp, hc⟩, by rw [← hc]; simpa using hnk⟩
  · rintro ⟨⟨p, hp, hc⟩, hck⟩
    exact ⟨p, ⟨hp, by simpa [hc] using hck⟩, hc⟩

/-- A key is present after an assignment iff it is the assigned key or was
already present (and distinct from it, given `rset` pops first). -/
theorem hasKey_rset_iff {r : RawRecord} {k c : String} {v : Val} :
    hasKey (rset r k v) c = true ↔ c = k ∨ (hasKey r c = true ∧ ¬c = k) := by
  unfold rset
  rw [show hasKey (rpop r k ++ [(k, v)]) c =
      (hasKey (rpop r k) c || hasKey [(k, v)] c) by
    unfold hasKey; exact List.any_append]
  simp only [Bool.or_eq_true, hasKey_rpop_iff]
  constructor
  · rintro (h | h)
    · exact Or.inr h
    · simp [hasKey] at h
      exact Or.inl h.symm
  · rintro (rfl | h)
    · exact Or.inr (by simp [hasKey])
    · exact Or.inl h

/-- A password check can only pass when every stored hash is rejected...
rephrased: if the checker rejects every hash for this password, `checkVal`
is `false` on every stored value. -/
theorem checkVal_false {ch : HashChecker} {p : String}
    (hch : ∀ h, ch h p = false) (v : Val) : checkVal ch v p = false := by
  cases v with
  | vstr s => exact hch s
  | vnull => rfl

/-! ## Strategy inversion lemmas -/

/-- Inversion for strategy 1: a success means the classifier produced a
cohort, that shard's query returned exactly one row, the password verified
against its `student_password`, and the result is its normalization. -/
theorem studentRollStrategy_eq_some {db : Db} {ch : HashChecker}
    {ul p : String} {r : RawRecord}
    (h : studentRollStrategy db ch ul p = some r) :
    ∃ bt ud, determine_student_batch ul = some bt ∧
      db bt "roll_no" ul = Except.ok [ud] ∧
      checkVal ch (rget ud "student_password" (Val.vstr "")) p = true ∧
      r = mkStudentIdentity ud bt ul := by
  unfold studentRollStrategy at h
  cases hbt : determine_student_batch ul with
  | none => simp [hbt] at h
  | some bt =>
    simp only [hbt] at h
    cases hurl : get_supabase_rest_url bt with
    | error e => simp [hurl] at h
    | ok u =>
      simp only [hurl] at h
      cases hq : db bt "roll_no" ul with
      | error e => simp [hq] at h
      | ok rows =>
        simp only [hq] at h
        rcases rows with _ | ⟨ud, _ | ⟨u2, tl⟩⟩
        · simp at h
        · have h2 : (if checkVal ch (rget ud "student_password" (Val.vstr ""))
                p = true then some (mkStudentIdentity ud bt ul)
              else none) = some r := h
          by_cases hpw :
            checkVal ch (rget ud "student_password" (Val.vstr "")) p = true
          · rw [if_pos hpw] at h2
            exact ⟨bt, ud, rfl, hq, hpw, (Option.some_inj.mp h2).symm⟩
          · rw [if_neg hpw] at h2
            simp at h2
        · simp at h

/-- Inversion for strategy 2 (teacher-by-username). -/
theorem teacherStrategy_eq_some {db : Db} {ch : HashChecker}
    {ul p : String} {r : RawRecord}
    (h : teacherStrategy db ch ul p = some r) :
    ∃ ud, db TEACHER_TABLE "username" ul = Except.ok [ud] ∧
      checkVal ch (rget ud "teacher_password" (Val.vstr "")) p = true ∧
      r = mkTeacherIdentity ud ul := by
  unfold teacherStrategy at h
  cases hurl : get_supabase_rest_url TEACHER_TABLE with
  | error e => simp [hurl] at h
  | ok u =>
    simp only [hurl] at h
    cases hq : db TEACHER_TABLE "username" ul with
    | error e => simp [hq] at h
    | ok rows =>
      simp only [hq] at h
      rcases rows with _ | ⟨ud, _ | ⟨u2, tl⟩⟩
      · simp at h
      · have h2 : (if checkVal ch (rget ud "teacher_password" (Val.vstr ""))
              p = true then some (mkTeacherIdentity ud ul)
            else none) = some r := h
        by_cases hpw :
          checkVal ch (rget ud "teacher_password" (Val.vstr "")) p = true
        · rw [if_pos hpw] at h2
          exact ⟨ud, rfl, hpw, (Option.some_inj.mp h2).symm⟩
        · rw [if_neg hpw] at h2
          simp at h2
      · simp at h

/-- Inversion for strategy 3 (admin-by-username). -/
theorem adminStrategy_eq_some {db : Db} {ch : HashChecker}
    {ul p : String} {r : RawRecord}
    (h : adminStrategy db ch ul p = some r) :
    ∃ ud, db ADMIN_TABLE "username" ul = Except.ok [ud] ∧
      checkVal ch (rget ud "password" (Val.vstr "")) p = true ∧
      r = mkAdminIdentity ud := by
  unfold adminStrategy at h
  cases hurl : get_supabase_rest_url ADMIN_TABLE with
  | error e => simp [hurl] at h
  | ok u =>
    simp only [hurl] at h
    cases hq : db ADMIN_TABLE "username" ul with
    | error e => simp [hq] at h
    | ok rows =>
      simp only [hq] at h
      rcases rows with _ | ⟨ud, _ | ⟨u2, tl⟩⟩
      · simp at h
      · have h2 : (if checkVal ch (rget ud "password" (Val.vstr ""))
              p = true then some (mkAdminIdentity ud)
            else none) = some r := h
        by_cases hpw : checkVal ch (rget ud "password" (Val.vstr "")) p = true
        · rw [if_pos hpw] at h2
          exact ⟨ud, rfl, hpw, (Option.some_inj.mp h2).symm⟩
        · rw [if_neg hpw] at h2
          simp at h2
      · simp at h

/-- Inversion for one shard of strategy 4 (parent-by-`parent_email`). -/
theorem parentShard_eq_some {db : Db} {ch : HashChecker}
    {ul p t : String} {r : RawRecord}
    (h : parentShard db ch ul p t = some r) :
    ∃ pd pe rn sn, db t "parent_email" ul = Except.ok [pd] ∧
      checkVal ch (rget pd "parent_password" (Val.vstr "")) p = true ∧
      ridx pd "parent_email" = some pe ∧ ridx pd "roll_no" = some rn ∧
      ridx pd "student_name" = some sn ∧
      r = mkParentIdentity pe rn sn t := by
  unfold parentShard at h
  cases hurl : get_supabase_rest_url t with
  | error e => simp [hurl] at h
  | ok u =>
    simp only [hurl] at h
    cases hq : db t "parent_email" ul with
    | error e => simp [hq] at h
    | ok rows =>
      simp only [hq] at h
      rcases rows with _ | ⟨pd, _ | ⟨u2, tl⟩⟩
      · simp at h
      · have h2 : (if checkVal ch (rget pd "parent_password" (Val.vstr ""))
              p = true then
              (match ridx pd "parent_email", ridx pd "roll_no",
                  ridx pd "student_name" with
               | some pe, some rn, some sn =>
                 some (mkParentIdentity pe rn sn t)
               | _, _, _ => none)
            else none) = some r := h
        by_cases hpw :
          checkVal ch (rget pd "parent_password" (Val.vstr "")) p = true
        · rw [if_pos hpw] at h2
          cases hpe : ridx pd "parent_email" with
          | none => simp [hpe] at h2
          | some pe =>
            cases hrn : ridx pd "roll_no" with
            | none => simp [hpe, hrn] at h2
            | some rn =>
              cases hsn : ridx pd "student_name" with
              | none => simp [hpe, hrn, hsn] at h2
              | some sn =>
                simp only [hpe, hrn, hsn] at h2
                exact ⟨pd, pe, rn, sn, rfl, hpw, hpe, hrn, hsn,
                  (Option.some_inj.mp h2).symm⟩
        · rw [if_neg hpw] at h2
          simp at h2
      · simp at h

/-- Inversion for one shard of strategy 5 (student-by-`student_email`). -/
theorem emailShard_eq_some {db : Db} {ch : HashChecker}
    {ul p t : String} {r : RawRecord}
    (h : emailShard db ch ul p t = some r) :
    ∃ ud, db t "student_email" ul = Except.ok [ud] ∧
      checkVal ch (rget ud "student_password" (Val.vstr "")) p = true ∧
      r = mkStudentIdentityByEmail ud t := by
  unfold emailShard at h
  cases hurl : get_supabase_rest_url t with
  | error e => simp [hurl] at h
  | ok u =>
    simp only [hurl] at h
    cases hq : db t "student_email" ul with
    | error e => simp [hq] at h
    | ok rows =>
      simp only [hq] at h
      rcases rows with _ | ⟨ud, _ | ⟨u2, tl⟩⟩
      · simp at h
      · have h2 : (if checkVal ch (rget ud "student_password" (Val.vstr ""))
              p = true then some (mkStudentIdentityByEmail ud t)
            else none) = some r := h
        by_cases hpw :
          checkVal ch (rget ud "student_password" (Val.vstr "")) p = true
        · rw [if_pos hpw] at h2
          exact ⟨ud, rfl, hpw, (Option.some_inj.mp h2).symm⟩
        · rw [if_neg hpw] at h2
          simp at h2
      · simp at h

/-- Inversion for the strategy-4 loop: a success comes from some shard in
the scanned list. -/
theorem parentScan_eq_some {db : Db} {ch : HashChecker} {ul p : String}
    {L : List String} {r : RawRecord}
    (h : parentScan db ch ul p L = some r) :
    ∃ t, t ∈ L ∧ parentShard db ch ul p t = some r := by
  induction L with
  | nil => simp [parentScan] at h
  | cons t ts ih =>
    unfold parentScan at h
    cases hsh : parentShard db ch ul p t with
    | some r1 =>
      rw [hsh] at h
      exact ⟨t, List.mem_cons_self t ts, hsh.trans h⟩
    | none =>
      rw [hsh] at h
      obtain ⟨t1, ht1, hsh1⟩ := ih h
      exact ⟨t1, List.mem_cons_of_mem t ht1, hsh1⟩

/-- Inversion for the strategy-5 loop. -/
theorem emailScan_eq_some {db : Db} {ch : HashChecker} {ul p : String}
    {L : List String} {r : RawRecord}
    (h : emailScan db ch ul p L = some r) :
    ∃ t, t ∈ L ∧ emailShard db ch ul p t = some r := by
  induction L with
  | nil => simp [emailScan] at h
  | cons t ts ih =>
    unfold emailScan at h
    cases hsh : emailShard db ch ul p t with
    | some r1 =>
      rw [hsh] at h
      exact ⟨t, List.mem_cons_self t ts, hsh.trans h⟩
    | none =>
      rw [hsh] at h
      obtain ⟨t1, ht1, hsh1⟩ := ih h
      exact ⟨t1, List.mem_cons_of_mem t ht1, hsh1⟩

/-- Inversion for the whole resolver: a returned identity comes from one of
the five strategies, applied to the lower-cased identifier. -/
theorem fetch_eq_some {db : Db} {ch : HashChecker} {u p : String}
    {r : RawRecord} (h : fetch_and_verify_user db ch u p = some r) :
    studentRollStrategy db ch (pyLower u) p = some r ∨
    teacherStrategy db ch (pyLower u) p = some r ∨
    adminStrategy db ch (pyLower u) p = some r ∨
    parentScan db ch (pyLower u) p STUDENT_TABLES = some r ∨
    emailScan db ch (pyLower u) p STUDENT_TABLES = some r := by
  unfold fetch_and_verify_user at h
  cases h1 : studentRollStrategy db ch (pyLower u) p with
  | some r1 => simp only [h1] at h; exact Or.inl h
  | none =>
  simp only [h1] at h
  cases h2 : teacherStrategy db ch (pyLower u) p with
  | some r2 => simp only [h2] at h; exact Or.inr (Or.inl h)
  | none =>
  simp only [h2] at h
  cases h3 : adminStrategy db ch (pyLower u) p with
  | some r3 => simp only [h3] at h; exact Or.inr (Or.inr (Or.inl h))
  | none =>
  simp only [h3] at h
  cases h4 : parentScan db ch (pyLower u) p STUDENT_TABLES with
  | some r4 =>
    simp only [h4] at h
    exact Or.inr (Or.inr (Or.inr (Or.inl h)))
  | none =>
    simp only [h4] at h
    exact Or.inr (Or.inr (Or.inr (Or.inr h)))

/-- Any table of `STUDENT_TABLES` is allow-listed (the allow-list starts
with them). -/
theorem student_table_allowed {t : String} (h : t ∈ STUDENT_TABLES) :
    t ∈ allowedTables := by
  unfold allowedTables
  exact List.mem_append_left _ (List.mem_append_left _
    (List.mem_append_left _ h))

/-- If the checker rejects every stored hash for this password, the
resolver returns `None`: no strategy can pass its verification step. -/
theorem fetch_none_of_reject (db : Db) (ch : HashChecker) (u p : String)
    (hch : ∀ h, ch h p = false) :
    fetch_and_verify_user db ch u p = none := by
  cases hres : fetch_and_verify_user db ch u p with
  | none => rfl
  | some r =>
    exfalso
    rcases fetch_eq_some hres with h | h | h | h | h
    · obtain ⟨bt, ud, _, _, hpw, _⟩ := studentRollStrategy_eq_some h
      rw [checkVal_false hch] at hpw
      exact Bool.false_ne_true hpw
    · obtain ⟨ud, _, hpw, _⟩ := teacherStrategy_eq_some h
      rw [checkVal_false hch] at hpw
      exact Bool.false_ne_true hpw
    · obtain ⟨ud, _, hpw, _⟩ := adminStrategy_eq_some h
      rw [checkVal_false hch] at hpw
      exact Bool.false_ne_true hpw
    · obtain ⟨t, _, hsh⟩ := parentScan_eq_some h
      obtain ⟨pd, pe, rn, sn, _, hpw, _⟩ := parentShard_eq_some hsh
      rw [checkVal_false hch] at hpw
      exact Bool.false_ne_true hpw
    · obtain ⟨t, _, hsh⟩ := emailScan_eq_some h
      obtain ⟨ud, _, hpw, _⟩ := emailShard_eq_some hsh
      rw [checkVal_false hch] at hpw
      exact Bool.false_ne_true hpw

/-! ## Claims about the Identity Resolver -/

/-- C2: a query result with zero rows or more than one row is never a
usable match: each of the five lookup shapes yields nothing from such a
result (for any checker — so password verification is not even reached),
and when every query of the store returns a row count different from one,
the whole resolver returns `None`. -/
theorem resolve_requires_unique_match :
    (∀ (db : Db) (ch : HashChecker) (ul p bt : String) (rows : List RawRecord),
      determine_student_batch ul = some bt →
      db bt "roll_no" ul = Except.ok rows → rows.length ≠ 1 →
      studentRollStrategy db ch ul p = none) ∧
    (∀ (db : Db) (ch : HashChecker) (ul p : String) (rows : List RawRecord),
      db TEACHER_TABLE "username" ul = Except.ok rows → rows.length ≠ 1 →
      teacherStrategy db ch ul p = none) ∧
    (∀ (db : Db) (ch : HashChecker) (ul p : String) (rows : List RawRecord),
      db ADMIN_TABLE "username" ul = Except.ok rows → rows.length ≠ 1 →
      adminStrategy db ch ul p = none) ∧
    (∀ (db : Db) (ch : HashChecker) (ul p t : String) (rows : List RawRecord),
      db t "parent_email" ul = Except.ok rows → rows.length ≠ 1 →
      parentShard db ch ul p t = none) ∧
    (∀ (db : Db) (ch : HashChecker) (ul p t : String) (rows : List RawRecord),
      db t "student_email" ul = Except.ok rows → rows.length ≠ 1 →
      emailShard db ch ul p t = none) ∧
    (∀ (db : Db) (ch : HashChecker) (u p : String),
      (∀ t f v rows, db t f v = Except.ok rows → rows.length ≠ 1) →
      fetch_and_verify_user db ch u p = none) := by
  refine ⟨?_, ?_, ?_, ?_, ?_, ?_⟩
  · intro db ch ul p bt rows hbt hq hlen
    cases hs : studentRollStrategy db ch ul p with
    | none => rfl
    | some r =>
      obtain ⟨bt1, ud, hbt1, hq1, _, _⟩ := studentRollStrategy_eq_some hs
      rw [hbt] at hbt1
      obtain rfl := Option.some_inj.mp hbt1
      rw [hq] at hq1
      obtain rfl : rows = [ud] := by
        have := hq1
        injection this
      simp at hlen
  · intro db ch ul p rows hq hlen
    cases hs : teacherStrategy db ch ul p with
    | none => rfl
    | some r =>
      obtain ⟨ud, hq1, _, _⟩ := teacherStrategy_eq_some hs
      rw [hq] at hq1
      obtain rfl : rows = [ud] := by injection hq1
      simp at hlen
  · intro db ch ul p rows hq hlen
    cases hs : adminStrategy db ch ul p with
    | none => rfl
    | some r =>
      obtain ⟨ud, hq1, _, _⟩ := adminStrategy_eq_some hs
      rw [hq] at hq1
      obtain rfl : rows = [ud] := by injection hq1
      simp at hlen
  · intro db ch ul p t rows hq hlen
    cases hs : parentShard db ch ul p t with
    | none => rfl
    | some r =>
      obtain ⟨pd, pe, rn, sn, hq1, _, _, _, _, _⟩ := parentShard_eq_some hs
      rw [hq] at hq1
      obtain rfl : rows = [pd] := by injection hq1
      simp at hlen
  · intro db ch ul p t rows hq hlen
    cases hs : emailShard db ch ul p t with
    | none => rfl
    | some r =>
      obtain ⟨ud, hq1, _, _⟩ := emailShard_eq_some hs
      rw [hq] at hq1
      obtain rfl : rows = [ud] := by injection hq1
      simp at hlen
  · intro db ch u p hdb
    cases hres : fetch_and_verify_user db ch u p with
    | none => rfl
    | some r =>
      exfalso
      rcases fetch_eq_some hres with h | h | h | h | h
      · obtain ⟨bt, ud, _, hq, _, _⟩ := studentRollStrategy_eq_some h
        simpa using hdb _ _ _ _ hq
      · obtain ⟨ud, hq, _, _⟩ := teacherStrategy_eq_some h
        simpa using hdb _ _ _ _ hq
      · obtain ⟨ud, hq, _, _⟩ := adminStrategy_eq_some h
        simpa using hdb _ _ _ _ hq
      · obtain ⟨t, _, hsh⟩ := parentScan_eq_some h
        obtain ⟨pd, pe, rn, sn, hq, _, _, _, _, _⟩ := parentShard_eq_some hsh
        simpa using hdb _ _ _ _ hq
      · obtain ⟨t, _, hsh⟩ := emailScan_eq_some h
        obtain ⟨ud, hq, _, _⟩ := emailShard_eq_some hsh
        simpa using hdb _ _ _ _ hq

/-- Witness for C2: a store answering every query with zero rows, and one
answering with two rows, both under a checker accepting everything — only
the row count blocks authentication. -/
theorem resolve_requires_unique_match_witness :
    teacherStrategy (fun _ _ _ => Except.ok []) (fun _ _ => true)
      "tina" "pw" = none ∧
    fetch_and_verify_user (fun _ _ _ => Except.ok [[], []])
      (fun _ _ => true) "b25x01" "pw" = none :=
  ⟨resolve_requires_unique_match.2.1 (fun _ _ _ => Except.ok [])
      (fun _ _ => true) "tina" "pw" [] rfl (by decide),
   resolve_requires_unique_match.2.2.2.2.2 (fun _ _ _ => Except.ok [[], []])
      (fun _ _ => true) "b25x01" "pw"
      (fun t f v rows h => by
        simp only [Except.ok.injEq] at h
        rw [← h]
        decide)⟩

/-- C6: when the candidate password verifies against no stored hash, the
resolver returns `None` — even if the identifier matches exactly one row in
some shard — and this is literally the same value an all-empty store (no
matching identifier anywhere) produces: bad-username and bad-password are
indistinguishable to the caller. -/
theorem resolve_wrong_password_not_found (db : Db) (ch : HashChecker)
    (u p : String) (hch : ∀ h, ch h p = false) :
    fetch_and_verify_user db ch u p = none ∧
    fetch_and_verify_user db ch u p =
      fetch_and_verify_user (fun _ _ _ => Except.ok []) ch u p :=
  ⟨fetch_none_of_reject db ch u p hch,
   (fetch_none_of_reject db ch u p hch).trans
     (fetch_none_of_reject (fun _ _ _ => Except.ok []) ch u p hch).symm⟩

/-- Witness for C6: the identifier `tina` matches exactly one teacher row,
yet with a checker that rejects everything the result is `None`, equal to
the empty-store result. -/
theorem resolve_wrong_password_not_found_witness :
    fetch_and_verify_user dbTeacherOnly (fun _ _ => false) "Tina" "x" =
      none ∧
    fetch_and_verify_user dbTeacherOnly (fun _ _ => false) "Tina" "x" =
      fetch_and_verify_user (fun _ _ _ => Except.ok [])
        (fun _ _ => false) "Tina" "x" :=
  resolve_wrong_password_not_found dbTeacherOnly (fun _ _ => false)
    "Tina" "x" (fun _ => rfl)

/-- C3: precedence and short-circuit of strategy 1.  Whenever the
classifier derives a cohort from the lower-cased identifier, that shard's
`roll_no` query returns exactly one row, and the password verifies against
its `student_password`, the resolver returns exactly that normalized
student identity — whatever the teacher, admin, parent, or e-mail lookups
would have returned (the store is otherwise arbitrary, so no later
strategy is consulted). -/
theorem resolve_student_precedence (db : Db) (ch : HashChecker)
    (username password bt : String) (ud : RawRecord)
    (hbt : determine_student_batch (pyLower username) = some bt)
    (hq : db bt "roll_no" (pyLower username) = Except.ok [ud])
    (hpw : checkVal ch (rget ud "student_password" (Val.vstr ""))
      password = true) :
    fetch_and_verify_user db ch username password =
      some (mkStudentIdentity ud bt (pyLower username)) := by
  have hurl : get_supabase_rest_url bt =
      Except.ok (SUPABASE_URL ++ "/rest/v1/" ++ bt) := by
    unfold get_supabase_rest_url
    rw [if_pos (student_table_allowed (determine_student_batch_mem hbt))]
  have hstrat : studentRollStrategy db ch (pyLower username) password =
      some (mkStudentIdentity ud bt (pyLower username)) := by
    unfold studentRollStrategy
    simp only [hbt, hurl, hq]
    rw [if_pos hpw]
  unfold fetch_and_verify_user
  simp only [hstrat]

/-- Witness for C3 at the concrete store `dbPrecedence`: the student
identity wins although the teacher row would also have verified. -/
theorem resolve_student_precedence_witness :
    fetch_and_verify_user dbPrecedence chDemo "B25X01" "pw" =
      some (mkStudentIdentity rowStudentAsha "b1" (pyLower "B25X01")) :=
  resolve_student_precedence dbPrecedence chDemo "B25X01" "pw" "b1"
    rowStudentAsha (by decide) rfl rfl

/-- C4 (amended): behaviour of the strategy-4 shard scan.  (a) On the first
shard with exactly one `parent_email` match whose password verifies (and
whose record carries the three copied fields), the scan stops with that
parent identity, whatever shards remain.  (b) When the single matched row's
password fails verification, the scan does NOT stop: it continues exactly
as the scan of the remaining shards. -/
theorem parent_scan_first_verified_match :
    (∀ (db : Db) (ch : HashChecker) (ul p t : String) (ts : List String)
       (pd : RawRecord) (pe rn sn : Val), t ∈ allowedTables →
      db t "parent_email" ul = Except.ok [pd] →
      checkVal ch (rget pd "parent_password" (Val.vstr "")) p = true →
      ridx pd "parent_email" = some pe → ridx pd "roll_no" = some rn →
      ridx pd "student_name" = some sn →
      parentScan db ch ul p (t :: ts) =
        some (mkParentIdentity pe rn sn t)) ∧
    (∀ (db : Db) (ch : HashChecker) (ul p t : String) (ts : List String)
       (pd : RawRecord),
      db t "parent_email" ul = Except.ok [pd] →
      checkVal ch (rget pd "parent_password" (Val.vstr "")) p = false →
      parentScan db ch ul p (t :: ts) = parentScan db ch ul p ts) := by
  constructor
  · intro db ch ul p t ts pd pe rn sn hal hq hpw hpe hrn hsn
    have hurl : get_supabase_rest_url t =
        Except.ok (SUPABASE_URL ++ "/rest/v1/" ++ t) := by
      unfold get_supabase_rest_url
      rw [if_pos hal]
    have hsh : parentShard db ch ul p t =
        some (mkParentIdentity pe rn sn t) := by
      unfold parentShard
      simp only [hurl, hq]
      rw [if_pos hpw]
      simp only [hpe, hrn, hsn]
    unfold parentScan
    simp only [hsh]
  · intro db ch ul p t ts pd hq hpw
    have hsh : parentShard db ch ul p t = none := by
      unfold parentShard
      cases hurl : get_supabase_rest_url t with
      | error e => rfl
      | ok u =>
        simp only [hq]
        rw [if_neg (by rw [hpw]; exact Bool.false_ne_true)]
    conv_lhs => unfold parentScan
    simp [hsh]

/-- Counterexample to C4 as stated: the first cohort shard (`b1`) produces
exactly one structurally-valid match, its password fails verification — and
the resolver nevertheless CONTINUES scanning and returns the parent
identity found in the later shard `b2`.  So the resolver does not stop at
the first structurally-valid match. -/
theorem parent_scan_continues_cex :
    dbParentCex "b1" "parent_email" "mom@x.com" = Except.ok [pdWrong] ∧
    checkVal chParent (rget pdWrong "parent_password" (Val.vstr ""))
      "pw" = false ∧
    fetch_and_verify_user dbParentCex chParent "MOM@X.COM" "pw" =
      some (mkParentIdentity (Val.vstr "mom@x.com") (Val.vstr "b24b22")
        (Val.vstr "Ravi") "b2") :=
  ⟨rfl, rfl, rfl⟩

/-- Witness for the amended C4: both conjuncts at the concrete store
`dbParentCex` — the scan starting at `b2` stops there with Ravi's parent
identity; the scan starting at `b1` (failed password) equals the scan of
the remaining shards. -/
theorem parent_scan_first_verified_match_witness :
    parentScan dbParentCex chParent "mom@x.com" "pw" ("b2" :: ["b3", "b4"]) =
      some (mkParentIdentity (Val.vstr "mom@x.com") (Val.vstr "b24b22")
        (Val.vstr "Ravi") "b2") ∧
    parentScan dbParentCex chParent "mom@x.com" "pw"
        ("b1" :: ["b2", "b3", "b4"]) =
      parentScan dbParentCex chParent "mom@x.com" "pw" ["b2", "b3", "b4"] :=
  ⟨parent_scan_first_verified_match.1 dbParentCex chParent "mom@x.com" "pw"
      "b2" ["b3", "b4"] pdRight (Val.vstr "mom@x.com") (Val.vstr "b24b22")
      (Val.vstr "Ravi") (by decide) rfl rfl rfl rfl rfl,
   parent_scan_first_verified_match.2 dbParentCex chParent "mom@x.com" "pw"
      "b1" ["b2", "b3", "b4"] pdWrong rfl rfl⟩

/-- Unpacking `rowCredsOk`: a credential field present in a schema-respecting
row is one of its table's credential columns. -/
theorem rowCredsOk_key {t : String} {r : RawRecord} {c : String}
    (hok : rowCredsOk t r = true) (hc : c ∈ credentialFields)
    (hk : hasKey r c = true) : c ∈ tableCredFields t := by
  unfold rowCredsOk at hok
  rw [List.all_eq_true] at hok
  have h2 := hok c hc
  rw [hk] at h2
  simpa using h2

/-- For a cohort table `t ∈ STUDENT_TABLES` the schema's credential columns
are the two the strategy-1/5 normalizations pop. -/
theorem tableCredFields_student {t : String} (h : t ∈ STUDENT_TABLES) :
    tableCredFields t = ["student_password", "parent_password"] := by
  unfold tableCredFields
  rw [if_pos h]

/-- The strategy-1 normalization leaves no credential field, given the raw
row carries only cohort-table credential columns. -/
theorem mkStudentIdentity_no_creds {ud : RawRecord} {bt ul : String}
    (hud : ∀ c, c ∈ credentialFields → hasKey ud c = true →
      c ∈ (["student_password", "parent_password"] : List String)) :
    ∀ c, c ∈ credentialFields →
      hasKey (mkStudentIdentity ud bt ul) c = false := by
  intro c hc
  simp only [credentialFields, List.mem_cons, List.not_mem_nil,
    or_false] at hc
  rcases hc with rfl | rfl | rfl | rfl
  all_goals rw [Bool.eq_false_iff]
  all_goals intro hk
  all_goals simp only [mkStudentIdentity, hasKey_rset_iff,
    hasKey_rpop_iff] at hk
  all_goals simp at hk
  · have h2 := hud "teacher_password" (by simp [credentialFields]) hk
    simp at h2
  · have h2 := hud "password" (by simp [credentialFields]) hk
    simp at h2

/-- The strategy-5 normalization leaves no credential field. -/
theorem mkStudentIdentityByEmail_no_creds {ud : RawRecord} {bt : String}
    (hud : ∀ c, c ∈ credentialFields → hasKey ud c = true →
      c ∈ (["student_password", "parent_password"] : List String)) :
    ∀ c, c ∈ credentialFields →
      hasKey (mkStudentIdentityByEmail ud bt) c = false := by
  intro c hc
  simp only [credentialFields, List.mem_cons, List.not_mem_nil,
    or_false] at hc
  rcases hc with rfl | rfl | rfl | rfl
  all_goals rw [Bool.eq_false_iff]
  all_goals intro hk
  all_goals simp only [mkStudentIdentityByEmail, hasKey_rset_iff,
    hasKey_rpop_iff] at hk
  all_goals simp at hk
  · have h2 := hud "teacher_password" (by simp [credentialFields]) hk
    simp at h2
  · have h2 := hud "password" (by simp [credentialFields]) hk
    simp at h2

/-- The strategy-2 normalization leaves no credential field, given the raw
row carries only the teacher table's credential column. -/
theorem mkTeacherIdentity_no_creds {ud : RawRecord} {ul : String}
    (hud : ∀ c, c ∈ credentialFields → hasKey ud c = true →
      c ∈ (["teacher_password"] : List String)) :
    ∀ c, c ∈ credentialFields →
      hasKey (mkTeacherIdentity ud ul) c = false := by
  intro c hc
  simp only [credentialFields, List.mem_cons, List.not_mem_nil,
    or_false] at hc
  rcases hc with rfl | rfl | rfl | rfl
  all_goals rw [Bool.eq_false_iff]
  all_goals intro hk
  all_goals simp only [mkTeacherIdentity, hasKey_rset_iff,
    hasKey_rpop_iff] at hk
  all_goals simp at hk
  · have h2 := hud "student_password" (by simp [credentialFields]) hk
    simp at h2
  · have h2 := hud "parent_password" (by simp [credentialFields]) hk
    simp at h2
  · have h2 := hud "password" (by simp [credentialFields]) hk
    simp at h2

/-- The strategy-3 normalization leaves no credential field, given the raw
row carries only the admin table's credential column. -/
theorem mkAdminIdentity_no_creds {ud : RawRecord}
    (hud : ∀ c, c ∈ credentialFields → hasKey ud c = true →
      c ∈ (["password"] : List String)) :
    ∀ c, c ∈ credentialFields →
      hasKey (mkAdminIdentity ud) c = false := by
  intro c hc
  simp only [credentialFields, List.mem_cons, List.not_mem_nil,
    or_false] at hc
  rcases hc with rfl | rfl | rfl | rfl
  all_goals rw [Bool.eq_false_iff]
  all_goals intro hk
  all_goals simp only [mkAdminIdentity, hasKey_rset_iff,
    hasKey_rpop_iff] at hk
  all_goals simp at hk
  · have h2 := hud "student_password" (by simp [credentialFields]) hk
    simp at h2
  · have h2 := hud "parent_password" (by simp [credentialFields]) hk
    simp at h2
  · have h2 := hud "teacher_password" (by simp [credentialFields]) hk
    simp at h2

/-- The strategy-4 session dict is built from scratch out of five
non-credential keys, so it carries no credential field, unconditionally. -/
theorem mkParentIdentity_no_creds (pe rn sn : Val) (bt : String) :
    ∀ c, c ∈ credentialFields →
      hasKey (mkParentIdentity pe rn sn bt) c = false := by
  intro c hc
  simp only [credentialFields, List.mem_cons, List.not_mem_nil,
    or_false] at hc
  rcases hc with rfl | rfl | rfl | rfl <;>
    simp [mkParentIdentity, hasKey]

/-- C1: against any schema-respecting store (each table's rows carry only
that table's credential columns) and any checker, every identity the
resolver returns is free of all four credential fields — each of the five
strategies' success paths strips every hash/password field the raw record
carried. -/
theorem resolve_strips_credentials (db : Db) (ch : HashChecker)
    (hdb : DbCredsOk db) (u p : String) (r : RawRecord)
    (hres : fetch_and_verify_user db ch u p = some r) :
    ∀ c, c ∈ credentialFields → hasKey r c = false := by
  rcases fetch_eq_some hres with h | h | h | h | h
  · obtain ⟨bt, ud, hbt, hq, _, rfl⟩ := studentRollStrategy_eq_some h
    have hwf := hdb _ _ _ _ hq ud (by simp)
    have hb := determine_student_batch_mem hbt
    refine mkStudentIdentity_no_creds ?_
    intro c hc hk
    have h2 := rowCredsOk_key hwf hc hk
    rwa [tableCredFields_student hb] at h2
  · obtain ⟨ud, hq, _, rfl⟩ := teacherStrategy_eq_some h
    have hwf := hdb _ _ _ _ hq ud (by simp)
    refine mkTeacherIdentity_no_creds ?_
    intro c hc hk
    have h2 := rowCredsOk_key hwf hc hk
    rwa [show tableCredFields TEACHER_TABLE = ["teacher_password"]
      from rfl] at h2
  · obtain ⟨ud, hq, _, rfl⟩ := adminStrategy_eq_some h
    have hwf := hdb _ _ _ _ hq ud (by simp)
    refine mkAdminIdentity_no_creds ?_
    intro c hc hk
    have h2 := rowCredsOk_key hwf hc hk
    rwa [show tableCredFields ADMIN_TABLE = ["password"] from rfl] at h2
  · obtain ⟨t, _, hsh⟩ := parentScan_eq_some h
    obtain ⟨pd, pe, rn, sn, _, _, _, _, _, rfl⟩ := parentShard_eq_some hsh
    exact mkParentIdentity_no_creds pe rn sn t
  · obtain ⟨t, ht, hsh⟩ := emailScan_eq_some h
    obtain ⟨ud, hq, _, rfl⟩ := emailShard_eq_some hsh
    have hwf := hdb _ _ _ _ hq ud (by simp)
    refine mkStudentIdentityByEmail_no_creds ?_
    intro c hc hk
    have h2 := rowCredsOk_key hwf hc hk
    rwa [tableCredFields_student ht] at h2

/-- Witness for C1: on the concrete store `dbTeacherOnly` (one teacher row,
carrying a `teacher_password` hash) with checker `chDemo`, the resolver
succeeds and the returned identity no longer has the `teacher_password`
key. -/
theorem resolve_strips_credentials_witness :
    hasKey (mkTeacherIdentity
      [("username", Val.vstr "tina"), ("teacher_name", Val.vstr "Tina"),
       ("teacher_password", Val.vstr "HH")] "tina")
      "teacher_password" = false :=
  resolve_strips_credentials dbTeacherOnly chDemo
    (by
      intro t f v rows h r hr
      unfold dbTeacherOnly at h
      split at h
      case isTrue hcond =>
        simp only [Bool.and_eq_true, beq_iff_eq] at hcond
        obtain ⟨⟨rfl, rfl⟩, rfl⟩ := hcond
        injection h with h2
        subst h2
        simp at hr
        subst hr
        decide
      case isFalse hcond =>
        injection h with h2
        subst h2
        simp at hr)
    "Tina" "pw"
    (mkTeacherIdentity
      [("username", Val.vstr "tina"), ("teacher_name", Val.vstr "Tina"),
       ("teacher_password", Val.vstr "HH")] "tina")
    rfl "teacher_password" (by simp [credentialFields])

end Stellar
